import Mathlib

/-!
Shallow embedding of the card_emu firmware (src/bridge.rs, src/rom.rs).

The vendor protocol engine (Bridge) is modelled as a pure state machine:
the two staging buffers are lists of bytes (Nat) with explicit lengths,
exactly mirroring the fixed `[u8; 64]` arrays plus `usize` length fields of
the source.  Interaction with the PIO FIFOs and the USB transfer object is
recorded as an event trace (BridgeEvent), so that ordering properties of a
handler run are statements about its trace.  Hardware responses that the
firmware merely observes (FIFO push acceptance, endpoint read/write results)
are inputs of the model, chosen by the environment.

The bootloader dispatcher (ROM) is modelled the same way: the ROM magic and
version bytes are inputs, and each dispatcher run is the list of ROM
invocations and fatal outcomes it performs, in order.
-/

namespace CardEmu

/-- USB control request type field (usb_device RequestType). -/
inductive RequestType where
  | standard
  | cls
  | vendor
  | reserved
deriving DecidableEq, Repr

/-- A USB control request as seen by Bridge::control_in / control_out:
the vendor opcode byte (`request`), and the 16-bit `value` and `index`
fields, modelled as Nat. -/
structure ControlRequest where
  requestType : RequestType
  request : Nat
  value : Nat
  index : Nat
deriving DecidableEq, Repr

/-- The vendor command set (enum ControlCommand in bridge.rs). -/
inductive ControlCommand where
  | Write
  | Read
  | WriteFromBuf
  | ReadIntoBuf
  | WriteBitsFromBuf
  | GetRecvLen
  | GetSendLen
  | RebootToUSB
deriving DecidableEq, Repr

/-- TryFrom of u8 for ControlCommand (bridge.rs lines 52-72); Err is none. -/
def ControlCommand.tryFrom (v : Nat) : Option ControlCommand :=
  if v = 0x00 then some ControlCommand.Write
  else if v = 0x01 then some ControlCommand.Read
  else if v = 0x10 then some ControlCommand.WriteFromBuf
  else if v = 0x11 then some ControlCommand.ReadIntoBuf
  else if v = 0x12 then some ControlCommand.WriteBitsFromBuf
  else if v = 0x80 then some ControlCommand.GetRecvLen
  else if v = 0x81 then some ControlCommand.GetSendLen
  else if v = 0xFF then some ControlCommand.RebootToUSB
  else none

/-- Observable steps a control handler performs, in execution order:
FIFO waits and pushes on the write channel, pushes/pops on the read
channel, the accept/reject of the control transfer, the explicit
unimplemented-command outcome (the todo macro, which halts the device),
and the reboot-to-USB call. -/
inductive BridgeEvent where
  | waitWriteNotFull
  | pushWrite (w : Nat)
  | pushWriteFail (w : Nat)
  | waitWriteEmpty
  | accept
  | reject
  | pushRead (w : Nat)
  | pushReadFail (w : Nat)
  | waitReadNotEmpty
  | popRead (b : Nat)
  | todoUnimpl
  | rebootToUsb
deriving DecidableEq, Repr

/-- USB stack errors the Bridge helpers surface (usb_device UsbError);
only WouldBlock is distinguished by the firmware. -/
inductive UsbError where
  | wouldBlock
  | other
deriving DecidableEq, Repr

/-- The Bridge buffer state: `send_buffer`/`send_len` and
`recv_buffer`/`recv_len` of struct Bridge.  The backing arrays are
`[u8; 64]`; here they are lists whose length stays 64 in every reachable
state (proved below), and the logical content of a buffer is its first
`len` elements. -/
structure BridgeState where
  sendBuffer : List Nat
  sendLen : Nat
  recvBuffer : List Nat
  recvLen : Nat
deriving DecidableEq, Repr

/-- Buffer state created by Bridge::new (bridge.rs lines 288-291). -/
def initBridge : BridgeState :=
  { sendBuffer := List.replicate 64 0
    sendLen := 0
    recvBuffer := List.replicate 64 0
    recvLen := 0 }

/-- slice.copy_within(s..e, 0) on a byte array: the elements at positions
s..e move to the front, and positions from e - s on keep their old values. -/
def copyWithinToStart (l : List Nat) (s e : Nat) : List Nat :=
  (l.drop s).take (e - s) ++ l.drop (e - s)

/-- Bridge::reset (bridge.rs lines 89-92): zero both lengths. -/
def Bridge.reset (s : BridgeState) : BridgeState :=
  { s with sendLen := 0, recvLen := 0 }

/-- Big-endian bytes of a usize cast to u32, as in
(self.recv_len as u32).to_be_bytes(). -/
def toBeBytes32 (n : Nat) : List Nat :=
  [((n % 2 ^ 32) >>> 24) &&& 0xFF, ((n % 2 ^ 32) >>> 16) &&& 0xFF,
   ((n % 2 ^ 32) >>> 8) &&& 0xFF, (n % 2 ^ 32) &&& 0xFF]

/-- Result of a control-in handler run: its event trace and, when the
transfer was accepted, the data-stage bytes returned to the host. -/
structure InResult where
  events : List BridgeEvent
  response : Option (List Nat)
deriving DecidableEq, Repr

/-- Bridge::control_in (bridge.rs lines 94-147).  The environment supplies
whether the push onto the read channel is accepted (`readPushOk`) and the
byte (a FIFO word) that read_rx.read() yields after the busy-wait
(`readPop`; none models the defensive None branch).  The handler never
mutates the buffer state, so only the trace and response are returned.
The catch-all Ok arm is the todo macro: a panic that halts the device. -/
def controlIn (readPushOk : Bool) (readPop : Option Nat) (s : BridgeState)
    (req : ControlRequest) : InResult :=
  if req.requestType = RequestType.vendor then
    match ControlCommand.tryFrom req.request with
    | some ControlCommand.Read =>
        if readPushOk = false then
          { events := [BridgeEvent.pushReadFail req.value, BridgeEvent.reject]
            response := none }
        else
          match readPop with
          | some b =>
              { events := [BridgeEvent.pushRead req.value, BridgeEvent.waitReadNotEmpty,
                           BridgeEvent.popRead b, BridgeEvent.accept]
                response := some [b % 256] }
          | none =>
              { events := [BridgeEvent.pushRead req.value, BridgeEvent.waitReadNotEmpty,
                           BridgeEvent.reject]
                response := none }
    | some ControlCommand.GetRecvLen =>
        { events := [BridgeEvent.accept], response := some (toBeBytes32 s.recvLen) }
    | some ControlCommand.GetSendLen =>
        { events := [BridgeEvent.accept], response := some (toBeBytes32 s.sendLen) }
    | some _ => { events := [BridgeEvent.todoUnimpl], response := none }
    | none => { events := [BridgeEvent.reject], response := none }
  else { events := [], response := none }

/-- The word-push loop shared by WriteFromBuf and WriteBitsFromBuf:
for each word, busy-wait until the write channel is not full, then push;
an environment oracle `pushOk` (indexed by push count, starting at k)
says whether write_u16_replicated accepts the push.  On the first failed
push the loop stops (the handler rejects immediately).  Returns the
events of the loop and whether every push succeeded. -/
def pushWords (pushOk : Nat → Bool) (k : Nat) (ws : List Nat) :
    List BridgeEvent × Bool :=
  match ws with
  | [] => ([], true)
  | w :: rest =>
      if pushOk k then
        let r := pushWords pushOk (k + 1) rest
        (BridgeEvent.waitWriteNotFull :: BridgeEvent.pushWrite w :: r.1, r.2)
      else
        ([BridgeEvent.waitWriteNotFull, BridgeEvent.pushWriteFail w], false)

/-- The words WriteFromBuf emits for the consumed bytes: req.value OR byte
(one word per byte), in buffer order. -/
def byteWordList (value : Nat) (bytes : List Nat) : List Nat :=
  bytes.map (fun b => value ||| b)

/-- The 8 words WriteBitsFromBuf emits for one byte: bit index 0 through 7,
each word req.value OR the single bit (b >>> i) &&& 1. -/
def bitWords (value b : Nat) : List Nat :=
  (List.range 8).map (fun i => value ||| ((b >>> i) &&& 1))

/-- The words WriteBitsFromBuf emits for the consumed bytes, in order:
8 words per byte. -/
def bitsWordList (value : Nat) (bytes : List Nat) : List Nat :=
  match bytes with
  | [] => []
  | b :: rest => bitWords value b ++ bitsWordList value rest

/-- Bridge::control_out (bridge.rs lines 149-248).  Returns the buffer
state after the handler and its event trace.  The environment oracle
`pushOk` says whether the i-th push onto the write channel succeeds
(in the hardware contract a push after a wait-until-not-full always
succeeds, i.e. the oracle is constantly true). -/
def controlOut (pushOk : Nat → Bool) (s : BridgeState) (req : ControlRequest) :
    BridgeState × List BridgeEvent :=
  if req.requestType = RequestType.vendor then
    match ControlCommand.tryFrom req.request with
    | some ControlCommand.RebootToUSB =>
        (s, [BridgeEvent.rebootToUsb])
    | some ControlCommand.Write =>
        if pushOk 0 then
          (s, [BridgeEvent.waitWriteNotFull, BridgeEvent.pushWrite req.value,
               BridgeEvent.accept, BridgeEvent.waitWriteEmpty])
        else
          (s, [BridgeEvent.waitWriteNotFull, BridgeEvent.pushWriteFail req.value,
               BridgeEvent.reject, BridgeEvent.waitWriteEmpty])
    | some ControlCommand.WriteFromBuf =>
        if req.index > s.recvLen then
          (s, [BridgeEvent.reject])
        else
          if (pushWords pushOk 0 (byteWordList req.value (s.recvBuffer.take req.index))).2 then
            ({ s with
                recvBuffer := copyWithinToStart s.recvBuffer req.index s.recvBuffer.length
                recvLen := s.recvLen - req.index },
             (pushWords pushOk 0 (byteWordList req.value (s.recvBuffer.take req.index))).1
               ++ [BridgeEvent.waitWriteEmpty, BridgeEvent.accept])
          else
            (s, (pushWords pushOk 0 (byteWordList req.value (s.recvBuffer.take req.index))).1
               ++ [BridgeEvent.reject])
    | some ControlCommand.WriteBitsFromBuf =>
        if req.index > s.recvLen then
          (s, [BridgeEvent.reject])
        else
          if (pushWords pushOk 0 (bitsWordList req.value (s.recvBuffer.take req.index))).2 then
            ({ s with
                recvBuffer := copyWithinToStart s.recvBuffer req.index s.recvBuffer.length
                recvLen := s.recvLen - req.index },
             (pushWords pushOk 0 (bitsWordList req.value (s.recvBuffer.take req.index))).1
               ++ [BridgeEvent.waitWriteEmpty, BridgeEvent.accept])
          else
            (s, (pushWords pushOk 0 (bitsWordList req.value (s.recvBuffer.take req.index))).1
               ++ [BridgeEvent.reject])
    | some _ => (s, [BridgeEvent.todoUnimpl])
    | none => (s, [BridgeEvent.reject])
  else (s, [])

/-- Overwrite the slice of l starting at pos with data, as the endpoint
read does into recv_buffer[recv_len..]. -/
def overwriteAt (l : List Nat) (pos : Nat) (data : List Nat) : List Nat :=
  l.take pos ++ data ++ l.drop (pos + data.length)

/-- Bridge::read (bridge.rs lines 295-302): drain-from-host.  `epData` is
what read_ep.read delivers: an error, or the bytes it wrote into the
spare part of the receive buffer (the USB stack writes at most the
length of the slice it is given). -/
def Bridge.read (s : BridgeState) (epData : Except UsbError (List Nat)) :
    BridgeState × Except UsbError Nat :=
  if s.recvBuffer.length ≤ s.recvLen then
    (s, Except.error UsbError.wouldBlock)
  else
    match epData with
    | Except.error e => (s, Except.error e)
    | Except.ok data =>
        ({ s with
            recvBuffer := overwriteAt s.recvBuffer s.recvLen data
            recvLen := s.recvLen + data.length },
         Except.ok data.length)

/-- Bridge::write (bridge.rs lines 304-317): flush-to-host.  `epRes` is
what write_ep.write returns for the slice send_buffer[..send_len]
(at most send_len bytes accepted). -/
def Bridge.write (s : BridgeState) (epRes : Except UsbError Nat) :
    BridgeState × Except UsbError Nat :=
  if s.sendLen = 0 then
    (s, Except.error UsbError.wouldBlock)
  else
    match epRes with
    | Except.error e => (s, Except.error e)
    | Except.ok amount =>
        if amount > 0 then
          ({ s with
              sendBuffer := copyWithinToStart s.sendBuffer amount s.sendLen
              sendLen := s.sendLen - amount },
           Except.ok amount)
        else
          (s, Except.ok amount)

/-- Bridge::receive (bridge.rs lines 319-321): does nothing. -/
def Bridge.receive (s : BridgeState) (amount : Nat) :
    BridgeState × Except UsbError Unit :=
  (s, Except.ok ())

/-- Bridge::clear (bridge.rs lines 323-325): does nothing. -/
def Bridge.clear (s : BridgeState) (amount : Nat) :
    BridgeState × Except UsbError Unit :=
  (s, Except.ok ())

/-- One operation of the device loop / USB stack on the Bridge, with the
environment choices (FIFO oracle, endpoint results) embedded. -/
inductive BridgeOp where
  | reset
  | controlInOp (readPushOk : Bool) (readPop : Option Nat) (req : ControlRequest)
  | controlOutOp (pushOk : Nat → Bool) (req : ControlRequest)
  | readOp (epData : Except UsbError (List Nat))
  | writeOp (epRes : Except UsbError Nat)
  | receiveOp (amount : Nat)
  | clearOp (amount : Nat)

/-- State transition of one operation.  control_in never mutates the
buffers, so its arm keeps the state. -/
def step (s : BridgeState) (op : BridgeOp) : BridgeState :=
  match op with
  | BridgeOp.reset => Bridge.reset s
  | BridgeOp.controlInOp _ _ _ => s
  | BridgeOp.controlOutOp pushOk req => (controlOut pushOk s req).1
  | BridgeOp.readOp epData => (Bridge.read s epData).1
  | BridgeOp.writeOp epRes => (Bridge.write s epRes).1
  | BridgeOp.receiveOp amount => (Bridge.receive s amount).1
  | BridgeOp.clearOp amount => (Bridge.clear s amount).1

/-- Environment contract for an operation in a given state: an endpoint
read delivers at most the spare capacity it was offered, and an endpoint
write accepts at most the send_len bytes it was offered. -/
def WFOp (s : BridgeState) (op : BridgeOp) : Prop :=
  match op with
  | BridgeOp.readOp (Except.ok data) =>
      s.recvLen < s.recvBuffer.length →
        data.length ≤ s.recvBuffer.length - s.recvLen
  | BridgeOp.writeOp (Except.ok amount) => amount ≤ s.sendLen
  | _ => True

/-- Buffer states reachable from device initialization by any sequence of
operations respecting the environment contract. -/
inductive Reachable : BridgeState → Prop where
  | init : Reachable initBridge
  | next (s : BridgeState) (op : BridgeOp) (hs : Reachable s) (hop : WFOp s op) :
      Reachable (step s op)

/-- The structural invariant of the Bridge buffers: both backing arrays
keep their fixed 64-byte capacity and both lengths stay within it. -/
def BridgeInv (s : BridgeState) : Prop :=
  s.recvBuffer.length = 64 ∧ s.sendBuffer.length = 64 ∧ s.recvLen ≤ 64 ∧ s.sendLen ≤ 64

/-- The words pushed to the write channel during a handler run, in order. -/
def pushedWords (evs : List BridgeEvent) : List Nat :=
  evs.filterMap (fun e =>
    match e with
    | BridgeEvent.pushWrite w => some w
    | _ => none)

/-- The transfer was accepted (and not rejected) during the run. -/
def acceptedRun (evs : List BridgeEvent) : Prop :=
  BridgeEvent.accept ∈ evs ∧ BridgeEvent.reject ∉ evs

/-- Index of the first occurrence of an event in a trace (length if absent). -/
def firstIdx : List BridgeEvent → BridgeEvent → Nat
  | [], _ => 0
  | x :: xs, e => if x = e then 0 else firstIdx xs e + 1

/-- The receive-buffer scenario state of spec section 8: buffer
[0xAA, 0xBB, 0xCC] of length 3. -/
def scenarioState : BridgeState :=
  { sendBuffer := List.replicate 64 0
    sendLen := 0
    recvBuffer := [0xAA, 0xBB, 0xCC]
    recvLen := 3 }

/-- ROM generation classification (enum BootromVersion in rom.rs). -/
inductive BootromVersion where
  | RP2040
  | RP235x
deriving DecidableEq, Repr

/-- Observable actions of the bootloader dispatcher, in order: invoking
the generation's ROM table-lookup function, issuing the 2-argument
(legacy) or 4-argument (current) reboot call, and fatal outcomes. -/
inductive RomEvent where
  | tableLookup (gen : BootromVersion) (code : Nat)
  | rebootCall2 (activityGpioMask : Nat) (disableInterfaces : Nat)
  | rebootCall4 (flags delayMs p0 p1 : Nat)
  | fatal (msg : String)
deriving DecidableEq, Repr

/-- ROM::rom_table_code: u16 from two native-endian (little-endian) bytes. -/
def romTableCode (c0 c1 : Nat) : Nat := c0 + 256 * c1

/-- ROM::check_bootrom_magic (rom.rs lines 113-127): the magic u16 read at
offset 0x10 must be the native-endian bytes of "Mu" (0x754D), then the
version byte at 0x12 selects the generation. -/
def checkBootromMagic (magic version : Nat) : Option BootromVersion :=
  if magic ≠ romTableCode 0x4D 0x75 then none
  else if version = 0x01 then some BootromVersion.RP2040
  else if version = 0x02 then some BootromVersion.RP235x
  else none

/-- Disable-interface flag word shared by both generations:
bit 0 disable-USB, bit 1 disable-picoboot. -/
def disableFlags (disableUsb disablePicoboot : Bool) : Nat :=
  (if disableUsb then 1 <<< 0 else 0) ||| (if disablePicoboot then 1 <<< 1 else 0)

/-- ROM::reset_usb_boot_rp2040 (rom.rs lines 32-64): first resolve the
reboot function through the legacy table lookup (code "UB"), then
validate the activity gpio (active-low unsupported, index below 32),
then issue the 2-argument reboot call. -/
def resetUsbBootRp2040 (activityGpio : Option Nat)
    (disableUsb disablePicoboot : Bool) : List RomEvent :=
  let lookup := RomEvent.tableLookup BootromVersion.RP2040 (romTableCode 0x55 0x42)
  match activityGpio with
  | some gpio =>
      if gpio &&& 0x80 ≠ 0 then
        [lookup, RomEvent.fatal "active-low gpio not supported on rp2040"]
      else if gpio ≥ 32 then
        [lookup, RomEvent.fatal "out-of-range gpio"]
      else
        [lookup, RomEvent.rebootCall2 (1 <<< gpio) (disableFlags disableUsb disablePicoboot)]
  | none =>
      [lookup, RomEvent.rebootCall2 0 (disableFlags disableUsb disablePicoboot)]

/-- Reboot-type-BOOTSEL flag of the current-generation reboot call. -/
def REBOOT_TYPE_BOOTSEL : Nat := 0x0002

/-- No-return-on-success flag of the current-generation reboot call. -/
def NO_RETURN_ON_SUCCESS : Nat := 0x0100

/-- ROM::reset_usb_boot_rp235x (rom.rs lines 66-107): first resolve the
reboot function through the current-generation lookup (code "RB"), then
validate the masked gpio index, then issue the 4-argument reboot call;
a return from that call is itself fatal (unreachable). -/
def resetUsbBootRp235x (activityGpio : Option Nat)
    (disableUsb disablePicoboot : Bool) : List RomEvent :=
  let lookup := RomEvent.tableLookup BootromVersion.RP235x (romTableCode 0x52 0x42)
  match activityGpio with
  | some gpio =>
      let g := gpio &&& 0x7F
      if g ≥ 32 then
        [lookup, RomEvent.fatal "out-of-range gpio"]
      else
        [lookup,
         RomEvent.rebootCall4 (REBOOT_TYPE_BOOTSEL ||| NO_RETURN_ON_SUCCESS) 1
           (disableFlags disableUsb disablePicoboot
             ||| (if gpio &&& 0x80 ≠ 0 then 1 <<< 4 else 0)
             ||| 1 <<< 5)
           (1 <<< g),
         RomEvent.fatal "reboot failed"]
  | none =>
      [lookup,
       RomEvent.rebootCall4 (REBOOT_TYPE_BOOTSEL ||| NO_RETURN_ON_SUCCESS) 1
         (disableFlags disableUsb disablePicoboot) 0,
       RomEvent.fatal "reboot failed"]

/-- ROM::reset_usb_boot (rom.rs lines 16-30): classify the ROM generation
from the magic and version bytes and dispatch; unknown is fatal with no
further ROM interaction. -/
def resetUsbBoot (magic version : Nat) (activityGpio : Option Nat)
    (disableUsb disablePicoboot : Bool) : List RomEvent :=
  match checkBootromMagic magic version with
  | some BootromVersion.RP2040 =>
      resetUsbBootRp2040 activityGpio disableUsb disablePicoboot
  | some BootromVersion.RP235x =>
      resetUsbBootRp235x activityGpio disableUsb disablePicoboot
  | none => [RomEvent.fatal "unknown bootrom version"]

/-- Does a dispatcher trace contain a reboot call? -/
def hasRebootCall (l : List RomEvent) : Bool :=
  l.any (fun e =>
    match e with
    | RomEvent.rebootCall2 _ _ => true
    | RomEvent.rebootCall4 _ _ _ _ => true
    | _ => false)

/-- Does a dispatcher trace contain a fatal outcome? -/
def hasFatal (l : List RomEvent) : Bool :=
  l.any (fun e =>
    match e with
    | RomEvent.fatal _ => true
    | _ => false)

/-- Does a dispatcher trace invoke any ROM function (the table-lookup
function or a reboot function)? -/
def romInvoked (l : List RomEvent) : Bool :=
  l.any (fun e =>
    match e with
    | RomEvent.tableLookup _ _ => true
    | RomEvent.rebootCall2 _ _ => true
    | RomEvent.rebootCall4 _ _ _ _ => true
    | _ => false)

theorem pushWords_true_snd (ws : List Nat) (k : Nat) :
    (pushWords (fun _ => true) k ws).2 = true := by
  induction ws generalizing k with
  | nil => rfl
  | cons w rest ih => simpa [pushWords] using ih (k + 1)

theorem pushWords_true_pushed (ws : List Nat) (k : Nat) :
    pushedWords (pushWords (fun _ => true) k ws).1 = ws := by
  induction ws generalizing k with
  | nil => rfl
  | cons w rest ih => simpa [pushWords, pushedWords] using ih (k + 1)

theorem pushWords_true_no_accept (ws : List Nat) (k : Nat) :
    BridgeEvent.accept ∉ (pushWords (fun _ => true) k ws).1 := by
  induction ws generalizing k with
  | nil => simp [pushWords]
  | cons w rest ih => simpa [pushWords] using ih (k + 1)

theorem pushWords_true_no_reject (ws : List Nat) (k : Nat) :
    BridgeEvent.reject ∉ (pushWords (fun _ => true) k ws).1 := by
  induction ws generalizing k with
  | nil => simp [pushWords]
  | cons w rest ih => simpa [pushWords] using ih (k + 1)

theorem copyWithinToStart_length (l : List Nat) (s e : Nat) (he : e ≤ l.length) :
    (copyWithinToStart l s e).length = l.length := by
  simp only [copyWithinToStart, List.length_append, List.length_take, List.length_drop]
  omega

theorem take_copyWithinToStart (l : List Nat) (n len : Nat) (hn : n ≤ len)
    (hl : len ≤ l.length) :
    (copyWithinToStart l n l.length).take (len - n) = (l.take len).drop n := by
  unfold copyWithinToStart
  rw [show List.take (l.length - n) (List.drop n l) = List.drop n l from
      List.take_of_length_le (by simp),
    List.take_append_of_le_length (by simp; omega), List.drop_take]

theorem controlOut_writeFromBuf_ok (s : BridgeState) (v i : Nat)
    (hn : i ≤ s.recvLen) :
    controlOut (fun _ => true) s (ControlRequest.mk RequestType.vendor 0x10 v i) =
      ({ s with
          recvBuffer := copyWithinToStart s.recvBuffer i s.recvBuffer.length
          recvLen := s.recvLen - i },
       (pushWords (fun _ => true) 0 (byteWordList v (s.recvBuffer.take i))).1
         ++ [BridgeEvent.waitWriteEmpty, BridgeEvent.accept]) := by
  show (if i > s.recvLen then (s, [BridgeEvent.reject])
    else
      let r := pushWords (fun _ => true) 0 (byteWordList v (s.recvBuffer.take i))
      if r.2 then
        ({ s with
            recvBuffer := copyWithinToStart s.recvBuffer i s.recvBuffer.length
            recvLen := s.recvLen - i },
         r.1 ++ [BridgeEvent.waitWriteEmpty, BridgeEvent.accept])
      else (s, r.1 ++ [BridgeEvent.reject])) = _
  rw [if_neg (by omega)]
  show (if (pushWords (fun _ => true) 0 (byteWordList v (s.recvBuffer.take i))).2 = true
    then _ else _) = _
  rw [if_pos (pushWords_true_snd _ _)]

theorem controlOut_writeBitsFromBuf_ok (s : BridgeState) (v i : Nat)
    (hn : i ≤ s.recvLen) :
    controlOut (fun _ => true) s (ControlRequest.mk RequestType.vendor 0x12 v i) =
      ({ s with
          recvBuffer := copyWithinToStart s.recvBuffer i s.recvBuffer.length
          recvLen := s.recvLen - i },
       (pushWords (fun _ => true) 0 (bitsWordList v (s.recvBuffer.take i))).1
         ++ [BridgeEvent.waitWriteEmpty, BridgeEvent.accept]) := by
  show (if i > s.recvLen then (s, [BridgeEvent.reject])
    else
      let r := pushWords (fun _ => true) 0 (bitsWordList v (s.recvBuffer.take i))
      if r.2 then
        ({ s with
            recvBuffer := copyWithinToStart s.recvBuffer i s.recvBuffer.length
            recvLen := s.recvLen - i },
         r.1 ++ [BridgeEvent.waitWriteEmpty, BridgeEvent.accept])
      else (s, r.1 ++ [BridgeEvent.reject])) = _
  rw [if_neg (by omega)]
  show (if (pushWords (fun _ => true) 0 (bitsWordList v (s.recvBuffer.take i))).2 = true
    then _ else _) = _
  rw [if_pos (pushWords_true_snd _ _)]

theorem pushedWords_append (a b : List BridgeEvent) :
    pushedWords (a ++ b) = pushedWords a ++ pushedWords b :=
  List.filterMap_append a b _

theorem acceptedRun_pushLoop_trace (ws : List Nat) :
    acceptedRun ((pushWords (fun _ => true) 0 ws).1
      ++ [BridgeEvent.waitWriteEmpty, BridgeEvent.accept]) := by
  constructor
  · simp
  · intro h
    rcases List.mem_append.mp h with h | h
    · exact pushWords_true_no_reject ws 0 h
    · simp at h

/-- C1: for every receive-buffer state and every count N with
N at most the current receive-buffer length, the WriteFromBuf control-out
command pushes, in order, one word per consumed buffered byte equal to the
request's value field OR-combined with that byte, then removes exactly the
first N bytes: the buffer afterwards holds exactly the original bytes from
index N onward, in original order, with length reduced by N, and the
transfer is accepted. -/
theorem C1_writeFromBuf_correct (s : BridgeState) (req : ControlRequest)
    (hv : req.requestType = RequestType.vendor) (hr : req.request = 0x10)
    (hn : req.index ≤ s.recvLen) (hl : s.recvLen ≤ s.recvBuffer.length) :
    pushedWords (controlOut (fun _ => true) s req).2
        = (s.recvBuffer.take req.index).map (fun b => req.value ||| b)
    ∧ (controlOut (fun _ => true) s req).1.recvLen = s.recvLen - req.index
    ∧ (controlOut (fun _ => true) s req).1.recvBuffer.take
          ((controlOut (fun _ => true) s req).1.recvLen)
        = (s.recvBuffer.take s.recvLen).drop req.index
    ∧ acceptedRun (controlOut (fun _ => true) s req).2 := by
  obtain ⟨rt, rq, v, i⟩ := req
  change rt = RequestType.vendor at hv
  change rq = (0x10 : Nat) at hr
  subst hv; subst hr
  show pushedWords (controlOut _ s (ControlRequest.mk RequestType.vendor 0x10 v i)).2
      = (s.recvBuffer.take i).map (fun b => v ||| b) ∧ _
  rw [controlOut_writeFromBuf_ok s v i hn]
  refine ⟨?_, rfl, ?_, acceptedRun_pushLoop_trace _⟩
  · show pushedWords (_ ++ _) = _
    rw [pushedWords_append, pushWords_true_pushed,
      show pushedWords [BridgeEvent.waitWriteEmpty, BridgeEvent.accept] = [] from rfl,
      List.append_nil]
    rfl
  · exact take_copyWithinToStart s.recvBuffer i s.recvLen hn hl

/-- C1 witness: the spec scenario, receive buffer [0xAA, 0xBB, 0xCC] of
length 3, WriteFromBuf with count 2 and value 0x0300. -/
theorem C1_witness :
    pushedWords (controlOut (fun _ => true) scenarioState
        (ControlRequest.mk RequestType.vendor 0x10 0x0300 2)).2
        = (scenarioState.recvBuffer.take 2).map (fun b => 0x0300 ||| b)
    ∧ (controlOut (fun _ => true) scenarioState
        (ControlRequest.mk RequestType.vendor 0x10 0x0300 2)).1.recvLen = 3 - 2
    ∧ (controlOut (fun _ => true) scenarioState
        (ControlRequest.mk RequestType.vendor 0x10 0x0300 2)).1.recvBuffer.take
          ((controlOut (fun _ => true) scenarioState
            (ControlRequest.mk RequestType.vendor 0x10 0x0300 2)).1.recvLen)
        = (scenarioState.recvBuffer.take 3).drop 2
    ∧ acceptedRun (controlOut (fun _ => true) scenarioState
        (ControlRequest.mk RequestType.vendor 0x10 0x0300 2)).2 :=
  C1_writeFromBuf_correct scenarioState
    (ControlRequest.mk RequestType.vendor 0x10 0x0300 2)
    rfl rfl (by decide) (by decide)

theorem bitsWordList_length (v : Nat) (bytes : List Nat) :
    (bitsWordList v bytes).length = 8 * bytes.length := by
  induction bytes with
  | nil => rfl
  | cons b rest ih =>
      simp only [bitsWordList, List.length_append, List.length_cons, ih, bitWords,
        List.length_map, List.length_range]
      omega

/-- C4: for every count N at most the current receive-buffer length, the
WriteBitsFromBuf control-out command emits exactly 8 words per consumed
byte (8 * N words in total), in bit order 0 first through 7 last, each word
the request's value field OR-combined with the single bit
(byte >>> i) &&& 1, and consumes the N bytes from the buffer front with the
same order-preserving compaction as WriteFromBuf. -/
theorem C4_writeBitsFromBuf_correct (s : BridgeState) (req : ControlRequest)
    (hv : req.requestType = RequestType.vendor) (hr : req.request = 0x12)
    (hn : req.index ≤ s.recvLen) (hl : s.recvLen ≤ s.recvBuffer.length) :
    pushedWords (controlOut (fun _ => true) s req).2
        = bitsWordList req.value (s.recvBuffer.take req.index)
    ∧ bitsWordList req.value (s.recvBuffer.take req.index)
        = (s.recvBuffer.take req.index).flatMap
            (fun b => (List.range 8).map (fun i => req.value ||| ((b >>> i) &&& 1)))
    ∧ (pushedWords (controlOut (fun _ => true) s req).2).length = 8 * req.index
    ∧ (controlOut (fun _ => true) s req).1.recvLen = s.recvLen - req.index
    ∧ (controlOut (fun _ => true) s req).1.recvBuffer.take
          ((controlOut (fun _ => true) s req).1.recvLen)
        = (s.recvBuffer.take s.recvLen).drop req.index
    ∧ acceptedRun (controlOut (fun _ => true) s req).2 := by
  obtain ⟨rt, rq, v, i⟩ := req
  change rt = RequestType.vendor at hv
  change rq = (0x12 : Nat) at hr
  subst hv; subst hr
  change i ≤ s.recvLen at hn
  show pushedWords (controlOut _ s (ControlRequest.mk RequestType.vendor 0x12 v i)).2
      = bitsWordList v (s.recvBuffer.take i) ∧ _
  rw [controlOut_writeBitsFromBuf_ok s v i hn]
  have hp : pushedWords
      ((pushWords (fun _ => true) 0 (bitsWordList v (s.recvBuffer.take i))).1
        ++ [BridgeEvent.waitWriteEmpty, BridgeEvent.accept])
      = bitsWordList v (s.recvBuffer.take i) := by
    rw [pushedWords_append, pushWords_true_pushed,
      show pushedWords [BridgeEvent.waitWriteEmpty, BridgeEvent.accept] = [] from rfl,
      List.append_nil]
  refine ⟨hp, ?_, ?_, rfl, ?_, acceptedRun_pushLoop_trace _⟩
  · clear hp
    induction (s.recvBuffer.take i) with
    | nil => rfl
    | cons b rest ih => simp [bitsWordList, ih, bitWords]
  · rw [hp, bitsWordList_length, List.length_take]
    have : min i s.recvBuffer.length = i := by omega
    rw [this]
  · exact take_copyWithinToStart s.recvBuffer i s.recvLen hn hl

/-- C4 witness: buffer [0xAA, 0xBB, 0xCC], WriteBitsFromBuf with count 1
and value 0x0300. -/
theorem C4_witness :
    pushedWords (controlOut (fun _ => true) scenarioState
        (ControlRequest.mk RequestType.vendor 0x12 0x0300 1)).2
        = bitsWordList 0x0300 (scenarioState.recvBuffer.take 1)
    ∧ bitsWordList 0x0300 (scenarioState.recvBuffer.take 1)
        = (scenarioState.recvBuffer.take 1).flatMap
            (fun b => (List.range 8).map (fun i => 0x0300 ||| ((b >>> i) &&& 1)))
    ∧ (pushedWords (controlOut (fun _ => true) scenarioState
        (ControlRequest.mk RequestType.vendor 0x12 0x0300 1)).2).length = 8 * 1
    ∧ (controlOut (fun _ => true) scenarioState
        (ControlRequest.mk RequestType.vendor 0x12 0x0300 1)).1.recvLen = 3 - 1
    ∧ (controlOut (fun _ => true) scenarioState
        (ControlRequest.mk RequestType.vendor 0x12 0x0300 1)).1.recvBuffer.take
          ((controlOut (fun _ => true) scenarioState
            (ControlRequest.mk RequestType.vendor 0x12 0x0300 1)).1.recvLen)
        = (scenarioState.recvBuffer.take 3).drop 1
    ∧ acceptedRun (controlOut (fun _ => true) scenarioState
        (ControlRequest.mk RequestType.vendor 0x12 0x0300 1)).2 :=
  C4_writeBitsFromBuf_correct scenarioState
    (ControlRequest.mk RequestType.vendor 0x12 0x0300 1)
    rfl rfl (by decide) (by decide)

/-- C5: for every count N strictly greater than the current receive-buffer
length, both WriteFromBuf(N) and WriteBitsFromBuf(N) reject the transfer
and leave the whole buffer state byte-for-byte unchanged, so that a
GetRecvLen issued immediately afterwards reports exactly the pre-command
length. -/
theorem C5_overlong_count_rejected (f : Nat → Bool) (s : BridgeState)
    (req : ControlRequest) (hv : req.requestType = RequestType.vendor)
    (hr : req.request = 0x10 ∨ req.request = 0x12)
    (hn : s.recvLen < req.index) :
    controlOut f s req = (s, [BridgeEvent.reject])
    ∧ ∀ rpk rp, (controlIn rpk rp (controlOut f s req).1
        (ControlRequest.mk RequestType.vendor 0x80 0 0)).response
        = some (toBeBytes32 s.recvLen) := by
  obtain ⟨rt, rq, v, i⟩ := req
  change rt = RequestType.vendor at hv
  subst hv
  change s.recvLen < i at hn
  have hmain : controlOut f s (ControlRequest.mk RequestType.vendor rq v i)
      = (s, [BridgeEvent.reject]) := by
    rcases hr with hr | hr
    · change rq = (0x10 : Nat) at hr
      subst hr
      show (if i > s.recvLen then (s, [BridgeEvent.reject]) else _) = _
      rw [if_pos (by omega)]
    · change rq = (0x12 : Nat) at hr
      subst hr
      show (if i > s.recvLen then (s, [BridgeEvent.reject]) else _) = _
      rw [if_pos (by omega)]
  refine ⟨hmain, fun rpk rp => ?_⟩
  rw [hmain]
  rfl

/-- C5 witness: buffer [0xAA, 0xBB, 0xCC] of length 3, WriteFromBuf with
count 4. -/
theorem C5_witness :
    controlOut (fun _ => true) scenarioState
        (ControlRequest.mk RequestType.vendor 0x10 0 4)
      = (scenarioState, [BridgeEvent.reject])
    ∧ ∀ rpk rp, (controlIn rpk rp (controlOut (fun _ => true) scenarioState
        (ControlRequest.mk RequestType.vendor 0x10 0 4)).1
        (ControlRequest.mk RequestType.vendor 0x80 0 0)).response
        = some (toBeBytes32 scenarioState.recvLen) :=
  C5_overlong_count_rejected (fun _ => true) scenarioState
    (ControlRequest.mk RequestType.vendor 0x10 0 4)
    rfl (Or.inl rfl) (by decide)

/-- C7: the link-reset notification sets both buffer lengths to zero
unconditionally, for every prior state, so GetRecvLen and GetSendLen both
report 0 immediately after a reset. -/
theorem C7_reset_zeroes_lengths (s : BridgeState) (rpk : Bool) (rp : Option Nat) :
    (Bridge.reset s).recvLen = 0 ∧ (Bridge.reset s).sendLen = 0
    ∧ (controlIn rpk rp (Bridge.reset s)
        (ControlRequest.mk RequestType.vendor 0x80 0 0)).response
        = some (toBeBytes32 0)
    ∧ (controlIn rpk rp (Bridge.reset s)
        (ControlRequest.mk RequestType.vendor 0x81 0 0)).response
        = some (toBeBytes32 0) :=
  ⟨rfl, rfl, rfl, rfl⟩

/-- C2 counterexample: in the Write arm of Bridge::control_out the accept
of the control transfer is issued BEFORE the wait-until-empty on the Write
Channel, so the claimed ordering (drain completes before accept) is false:
on a concrete request the trace is wait-not-full, push, accept, wait-empty,
and the first wait-empty does not precede the first accept. -/
theorem C2_counterexample :
    (controlOut (fun _ => true) initBridge
        (ControlRequest.mk RequestType.vendor 0x00 0x1234 0)).2
      = [BridgeEvent.waitWriteNotFull, BridgeEvent.pushWrite 0x1234,
         BridgeEvent.accept, BridgeEvent.waitWriteEmpty]
    ∧ ¬ (firstIdx (controlOut (fun _ => true) initBridge
          (ControlRequest.mk RequestType.vendor 0x00 0x1234 0)).2
            BridgeEvent.waitWriteEmpty
        < firstIdx (controlOut (fun _ => true) initBridge
          (ControlRequest.mk RequestType.vendor 0x00 0x1234 0)).2
            BridgeEvent.accept) := by
  decide

/-- C2 amended: for every Write control-out command whose push succeeds,
the handler busy-waits for write-channel space, pushes the request's value,
accepts the transfer, and only then busy-waits until the Write Channel
drains to empty before returning: the drain wait completes before the
handler returns, but the accept is issued before the drain wait. -/
theorem C2_write_accept_then_drain (f : Nat → Bool) (s : BridgeState)
    (req : ControlRequest) (hv : req.requestType = RequestType.vendor)
    (hr : req.request = 0x00) (hp : f 0 = true) :
    controlOut f s req =
      (s, [BridgeEvent.waitWriteNotFull, BridgeEvent.pushWrite req.value,
           BridgeEvent.accept, BridgeEvent.waitWriteEmpty]) := by
  obtain ⟨rt, rq, v, i⟩ := req
  change rt = RequestType.vendor at hv
  change rq = (0x00 : Nat) at hr
  subst hv; subst hr
  show (if f 0 = true then
      (s, [BridgeEvent.waitWriteNotFull, BridgeEvent.pushWrite v,
           BridgeEvent.accept, BridgeEvent.waitWriteEmpty])
    else _) = _
  rw [if_pos hp]

/-- C2 witness: the amended trace at a concrete state and request. -/
theorem C2_witness :
    controlOut (fun _ => true) initBridge
        (ControlRequest.mk RequestType.vendor 0x00 0x0500 0)
      = (initBridge, [BridgeEvent.waitWriteNotFull, BridgeEvent.pushWrite 0x0500,
          BridgeEvent.accept, BridgeEvent.waitWriteEmpty]) :=
  C2_write_accept_then_drain (fun _ => true) initBridge
    (ControlRequest.mk RequestType.vendor 0x00 0x0500 0) rfl rfl rfl

/-- C3 counterexample: the catch-all arms for recognized-but-unwired
opcodes are the todo macro, i.e. a panic (under panic_halt it halts the
device), so a panic IS reachable from such an opcode: ReadIntoBuf (0x11)
on control-in and GetRecvLen (0x80) arriving as control-out both reach it. -/
theorem C3_counterexample :
    BridgeEvent.todoUnimpl ∈ (controlIn true none initBridge
        (ControlRequest.mk RequestType.vendor 0x11 0 0)).events
    ∧ BridgeEvent.todoUnimpl ∈ (controlOut (fun _ => true) initBridge
        (ControlRequest.mk RequestType.vendor 0x80 0 0)).2 := by
  decide

/-- C3 amended: every vendor transfer whose opcode is recognized by the
command set but not wired to a handler reaches the explicit todo
"not implemented" outcome: the transfer is never silently accepted (and
never rejected as if handled), the buffer state is unmutated, and the run
is the explicit unimplemented panic, which halts the device. -/
theorem C3_unwired_not_silently_accepted (rpk : Bool) (rp : Option Nat)
    (f : Nat → Bool) (s : BridgeState) (req : ControlRequest)
    (hv : req.requestType = RequestType.vendor) :
    (req.request = 0x00 ∨ req.request = 0x10 ∨ req.request = 0x11
        ∨ req.request = 0x12 ∨ req.request = 0xFF →
      controlIn rpk rp s req
        = { events := [BridgeEvent.todoUnimpl], response := none })
    ∧ (req.request = 0x01 ∨ req.request = 0x11
        ∨ req.request = 0x80 ∨ req.request = 0x81 →
      controlOut f s req = (s, [BridgeEvent.todoUnimpl])) := by
  obtain ⟨rt, rq, v, i⟩ := req
  change rt = RequestType.vendor at hv
  subst hv
  constructor
  · intro h
    rcases h with h | h | h | h | h <;> (change rq = _ at h; subst h; rfl)
  · intro h
    rcases h with h | h | h | h <;> (change rq = _ at h; subst h; rfl)

/-- C3 witness: ReadIntoBuf (0x11), unwired on both directions, reaches
the todo outcome on control-in and on control-out. -/
theorem C3_witness :
    controlIn true none initBridge (ControlRequest.mk RequestType.vendor 0x11 0 0)
      = { events := [BridgeEvent.todoUnimpl], response := none }
    ∧ controlOut (fun _ => true) initBridge
        (ControlRequest.mk RequestType.vendor 0x11 0 0)
      = (initBridge, [BridgeEvent.todoUnimpl]) :=
  ⟨(C3_unwired_not_silently_accepted true none (fun _ => true) initBridge
      (ControlRequest.mk RequestType.vendor 0x11 0 0) rfl).1
      (Or.inr (Or.inr (Or.inl rfl))),
   (C3_unwired_not_silently_accepted true none (fun _ => true) initBridge
      (ControlRequest.mk RequestType.vendor 0x11 0 0) rfl).2
      (Or.inr (Or.inl rfl))⟩

theorem overwriteAt_length (l : List Nat) (pos : Nat) (data : List Nat)
    (h : pos + data.length ≤ l.length) :
    (overwriteAt l pos data).length = l.length := by
  simp only [overwriteAt, List.length_append, List.length_take, List.length_drop]
  omega

theorem controlOut_fst_shape (f : Nat → Bool) (s : BridgeState) (req : ControlRequest) :
    (controlOut f s req).1.recvBuffer.length = s.recvBuffer.length
    ∧ (controlOut f s req).1.recvLen ≤ s.recvLen
    ∧ (controlOut f s req).1.sendLen = s.sendLen
    ∧ (controlOut f s req).1.sendBuffer = s.sendBuffer := by
  unfold controlOut
  split
  · split
    · exact ⟨rfl, Nat.le_refl _, rfl, rfl⟩
    · split
      · exact ⟨rfl, Nat.le_refl _, rfl, rfl⟩
      · exact ⟨rfl, Nat.le_refl _, rfl, rfl⟩
    · split
      · exact ⟨rfl, Nat.le_refl _, rfl, rfl⟩
      · split
        · exact ⟨copyWithinToStart_length _ _ _ (Nat.le_refl _), Nat.sub_le _ _, rfl, rfl⟩
        · exact ⟨rfl, Nat.le_refl _, rfl, rfl⟩
    · split
      · exact ⟨rfl, Nat.le_refl _, rfl, rfl⟩
      · split
        · exact ⟨copyWithinToStart_length _ _ _ (Nat.le_refl _), Nat.sub_le _ _, rfl, rfl⟩
        · exact ⟨rfl, Nat.le_refl _, rfl, rfl⟩
    · exact ⟨rfl, Nat.le_refl _, rfl, rfl⟩
    · exact ⟨rfl, Nat.le_refl _, rfl, rfl⟩
  · exact ⟨rfl, Nat.le_refl _, rfl, rfl⟩

theorem step_preserves_inv (s : BridgeState) (op : BridgeOp)
    (hInv : BridgeInv s) (hop : WFOp s op) : BridgeInv (step s op) := by
  obtain ⟨hrb, hsb, hrl, hsl⟩ := hInv
  cases op with
  | reset => exact ⟨hrb, hsb, Nat.zero_le _, Nat.zero_le _⟩
  | controlInOp rpk rp req => exact ⟨hrb, hsb, hrl, hsl⟩
  | controlOutOp f req =>
      obtain ⟨h1, h2, h3, h4⟩ := controlOut_fst_shape f s req
      show BridgeInv (controlOut f s req).1
      exact ⟨by rw [h1, hrb], by rw [h4, hsb], by omega, by omega⟩
  | readOp epData =>
      show BridgeInv (Bridge.read s epData).1
      unfold Bridge.read
      by_cases hc : s.recvBuffer.length ≤ s.recvLen
      · rw [if_pos hc]
        exact ⟨hrb, hsb, hrl, hsl⟩
      · rw [if_neg hc]
        cases epData with
        | error e => exact ⟨hrb, hsb, hrl, hsl⟩
        | ok data =>
            have hd : data.length ≤ s.recvBuffer.length - s.recvLen := hop (by omega)
            refine ⟨?_, hsb, ?_, hsl⟩
            · show (overwriteAt s.recvBuffer s.recvLen data).length = 64
              rw [overwriteAt_length _ _ _ (by omega)]
              exact hrb
            · show s.recvLen + data.length ≤ 64
              omega
  | writeOp epRes =>
      show BridgeInv (Bridge.write s epRes).1
      unfold Bridge.write
      by_cases hc : s.sendLen = 0
      · rw [if_pos hc]
        exact ⟨hrb, hsb, hrl, hsl⟩
      · rw [if_neg hc]
        cases epRes with
        | error e => exact ⟨hrb, hsb, hrl, hsl⟩
        | ok amount =>
            have ha : amount ≤ s.sendLen := hop
            show BridgeInv
              (if amount > 0 then
                ({ s with
                    sendBuffer := copyWithinToStart s.sendBuffer amount s.sendLen
                    sendLen := s.sendLen - amount },
                 Except.ok amount)
              else (s, Except.ok amount)).1
            by_cases hg : amount > 0
            · rw [if_pos hg]
              refine ⟨hrb, ?_, hrl, ?_⟩
              · show (copyWithinToStart s.sendBuffer amount s.sendLen).length = 64
                rw [copyWithinToStart_length _ _ _ (by omega)]
                exact hsb
              · show s.sendLen - amount ≤ 64
                omega
            · rw [if_neg hg]
              exact ⟨hrb, hsb, hrl, hsl⟩
  | receiveOp amount => exact ⟨hrb, hsb, hrl, hsl⟩
  | clearOp amount => exact ⟨hrb, hsb, hrl, hsl⟩

theorem reachable_inv (s : BridgeState) (h : Reachable s) : BridgeInv s := by
  induction h with
  | init => exact ⟨by simp [initBridge], by simp [initBridge], Nat.zero_le _, Nat.zero_le _⟩
  | next s op hs hop ih => exact step_preserves_inv s op ih hop

theorem step_preserves_sendLen_zero (s : BridgeState) (op : BridgeOp)
    (h0 : s.sendLen = 0) : (step s op).sendLen = 0 := by
  cases op with
  | reset => rfl
  | controlInOp rpk rp req => exact h0
  | controlOutOp f req => exact (controlOut_fst_shape f s req).2.2.1.trans h0
  | readOp epData =>
      show (Bridge.read s epData).1.sendLen = 0
      unfold Bridge.read
      by_cases hc : s.recvBuffer.length ≤ s.recvLen
      · rw [if_pos hc]
        exact h0
      · rw [if_neg hc]
        cases epData with
        | error e => exact h0
        | ok data => exact h0
  | writeOp epRes =>
      show (Bridge.write s epRes).1.sendLen = 0
      unfold Bridge.write
      rw [if_pos h0]
      exact h0
  | receiveOp amount => exact h0
  | clearOp amount => exact h0

theorem reachable_sendLen_zero (s : BridgeState) (h : Reachable s) :
    s.sendLen = 0 := by
  induction h with
  | init => rfl
  | next s op hs hop ih => exact step_preserves_sendLen_zero s op ih

/-- C6: in every state reachable from device initialization by any
sequence of operations (reset, control-in, control-out, drain-from-host
read, flush-to-host write), the receive-buffer length never exceeds its
fixed 64-byte capacity and the send-buffer length never exceeds its fixed
64-byte capacity; the drain-from-host operation appends at most the
remaining capacity and signals backpressure (WouldBlock) rather than
overflowing when the buffer is full. -/
theorem C6_buffer_lengths_bounded (s : BridgeState) (h : Reachable s) :
    s.recvLen ≤ 64 ∧ s.sendLen ≤ 64
    ∧ (s.recvLen = 64 →
        ∀ epData, Bridge.read s epData = (s, Except.error UsbError.wouldBlock))
    ∧ (∀ data, data.length ≤ 64 - s.recvLen →
        (Bridge.read s (Except.ok data)).1.recvLen ≤ 64) := by
  obtain ⟨hrb, hsb, hrl, hsl⟩ := reachable_inv s h
  refine ⟨hrl, hsl, ?_, ?_⟩
  · intro h64 epData
    unfold Bridge.read
    rw [if_pos (by omega)]
  · intro data hd
    unfold Bridge.read
    split
    · exact hrl
    · show s.recvLen + data.length ≤ 64
      omega

/-- C6 witness: the invariant holds at the state reached by a reset step
from the initial state. -/
theorem C6_witness :
    (step initBridge BridgeOp.reset).recvLen ≤ 64
    ∧ (step initBridge BridgeOp.reset).sendLen ≤ 64
    ∧ ((step initBridge BridgeOp.reset).recvLen = 64 →
        ∀ epData, Bridge.read (step initBridge BridgeOp.reset) epData
          = (step initBridge BridgeOp.reset, Except.error UsbError.wouldBlock))
    ∧ (∀ data, data.length ≤ 64 - (step initBridge BridgeOp.reset).recvLen →
        (Bridge.read (step initBridge BridgeOp.reset) (Except.ok data)).1.recvLen ≤ 64) :=
  C6_buffer_lengths_bounded (step initBridge BridgeOp.reset)
    (Reachable.next initBridge BridgeOp.reset Reachable.init trivial)

/-- C10: in every reachable state the send buffer's length is exactly 0:
no operation of this version ever increases it, so GetSendLen always
returns the 4-byte big-endian encoding of 0 and the flush-to-host write
always returns WouldBlock without transferring bytes or changing state. -/
theorem C10_send_buffer_always_empty (s : BridgeState) (h : Reachable s) :
    s.sendLen = 0
    ∧ (∀ rpk rp, (controlIn rpk rp s
        (ControlRequest.mk RequestType.vendor 0x81 0 0)).response
        = some (toBeBytes32 0))
    ∧ (∀ epRes, Bridge.write s epRes = (s, Except.error UsbError.wouldBlock)) := by
  have h0 := reachable_sendLen_zero s h
  refine ⟨h0, fun rpk rp => ?_, fun epRes => ?_⟩
  · show some (toBeBytes32 s.sendLen) = some (toBeBytes32 0)
    rw [h0]
  · unfold Bridge.write
    rw [if_pos h0]

/-- C10 witness: the send-buffer emptiness conclusions at the initial
state. -/
theorem C10_witness :
    initBridge.sendLen = 0
    ∧ (∀ rpk rp, (controlIn rpk rp initBridge
        (ControlRequest.mk RequestType.vendor 0x81 0 0)).response
        = some (toBeBytes32 0))
    ∧ (∀ epRes, Bridge.write initBridge epRes
        = (initBridge, Except.error UsbError.wouldBlock)) :=
  C10_send_buffer_always_empty initBridge Reachable.init

/-- C8: the bootloader dispatcher classifies the ROM from the magic u16
(native-endian bytes of "Mu") and the version byte: version 0x01 takes the
legacy 2-argument call path (reset_usb_boot_rp2040), version 0x02 takes
the current-generation 4-argument path (reset_usb_boot_rp235x), and any
other version, or a wrong magic, is a fatal classification with no reboot
call ever attempted. -/
theorem C8_bootrom_dispatch (magic version : Nat) (g : Option Nat) (du dp : Bool) :
    (magic = romTableCode 0x4D 0x75 → version = 0x01 →
      resetUsbBoot magic version g du dp = resetUsbBootRp2040 g du dp)
    ∧ (magic = romTableCode 0x4D 0x75 → version = 0x02 →
      resetUsbBoot magic version g du dp = resetUsbBootRp235x g du dp)
    ∧ (magic ≠ romTableCode 0x4D 0x75 ∨ (version ≠ 0x01 ∧ version ≠ 0x02) →
      resetUsbBoot magic version g du dp = [RomEvent.fatal "unknown bootrom version"]
      ∧ hasRebootCall (resetUsbBoot magic version g du dp) = false) := by
  refine ⟨?_, ?_, ?_⟩
  · intro hm hv
    subst hm; subst hv
    rfl
  · intro hm hv
    subst hm; subst hv
    rfl
  · intro h
    have hnone : checkBootromMagic magic version = none := by
      unfold checkBootromMagic
      by_cases hm : magic ≠ romTableCode 0x4D 0x75
      · rw [if_pos hm]
      · rw [if_neg hm]
        rcases h with h | ⟨h1, h2⟩
        · exact absurd h hm
        · rw [if_neg h1, if_neg h2]
    have hfatal : resetUsbBoot magic version g du dp
        = [RomEvent.fatal "unknown bootrom version"] := by
      unfold resetUsbBoot
      rw [hnone]
    exact ⟨hfatal, by rw [hfatal]; rfl⟩

/-- C8 witness: dispatch outcomes at the real magic with versions 0x01,
0x02 and 0x03. -/
theorem C8_witness :
    resetUsbBoot (romTableCode 0x4D 0x75) 0x01 none false false
      = resetUsbBootRp2040 none false false
    ∧ resetUsbBoot (romTableCode 0x4D 0x75) 0x02 none false false
      = resetUsbBootRp235x none false false
    ∧ (resetUsbBoot (romTableCode 0x4D 0x75) 0x03 none false false
        = [RomEvent.fatal "unknown bootrom version"]
      ∧ hasRebootCall (resetUsbBoot (romTableCode 0x4D 0x75) 0x03 none false false)
        = false) :=
  ⟨(C8_bootrom_dispatch (romTableCode 0x4D 0x75) 0x01 none false false).1 rfl rfl,
   (C8_bootrom_dispatch (romTableCode 0x4D 0x75) 0x02 none false false).2.1 rfl rfl,
   (C8_bootrom_dispatch (romTableCode 0x4D 0x75) 0x03 none false false).2.2
     (Or.inr ⟨by decide, by decide⟩)⟩

/-- C9 counterexample: with pin index 33, on both generations the
dispatcher invokes the generation's ROM table-lookup function FIRST
(rom.rs lines 37 and 71), before the pin validation panics, so the claimed
property that no ROM function (including the table-lookup function) is
invoked before the rejection is false. -/
theorem C9_counterexample :
    resetUsbBootRp2040 (some 33) false false
      = [RomEvent.tableLookup BootromVersion.RP2040 (romTableCode 0x55 0x42),
         RomEvent.fatal "out-of-range gpio"]
    ∧ romInvoked (resetUsbBootRp2040 (some 33) false false) = true
    ∧ resetUsbBootRp235x (some 33) false false
      = [RomEvent.tableLookup BootromVersion.RP235x (romTableCode 0x52 0x42),
         RomEvent.fatal "out-of-range gpio"]
    ∧ romInvoked (resetUsbBootRp235x (some 33) false false) = true := by
  decide

set_option maxRecDepth 4096 in
/-- C9 amended: for every activity-pin byte whose masked index is outside
the 0-31 range, and on the legacy generation also for every pin byte with
the active-low bit set, the dispatcher fails fatally before the reboot ROM
call: the trace contains a fatal outcome and no reboot call, although the
table-lookup ROM function has already been invoked to resolve the function
pointer. -/
theorem C9_invalid_pin_fatal_before_reboot_call :
    ∀ gpio : Nat, gpio < 256 → ∀ du dp : Bool,
      (32 ≤ gpio &&& 0x7F ∨ gpio &&& 0x80 ≠ 0 →
        hasRebootCall (resetUsbBootRp2040 (some gpio) du dp) = false
        ∧ hasFatal (resetUsbBootRp2040 (some gpio) du dp) = true)
      ∧ (32 ≤ gpio &&& 0x7F →
        hasRebootCall (resetUsbBootRp235x (some gpio) du dp) = false
        ∧ hasFatal (resetUsbBootRp235x (some gpio) du dp) = true) := by
  decide

/-- C9 witness: the amended conclusions at pin 33 with the disable-USB
flag set. -/
theorem C9_witness :
    (hasRebootCall (resetUsbBootRp2040 (some 33) true false) = false
      ∧ hasFatal (resetUsbBootRp2040 (some 33) true false) = true)
    ∧ (hasRebootCall (resetUsbBootRp235x (some 33) true false) = false
      ∧ hasFatal (resetUsbBootRp235x (some 33) true false) = true) :=
  ⟨(C9_invalid_pin_fatal_before_reboot_call 33 (by decide) true false).1
      (Or.inl (by decide)),
   (C9_invalid_pin_fatal_before_reboot_call 33 (by decide) true false).2
      (by decide)⟩

end CardEmu
